import Mathlib

set_option linter.unusedVariables false

/-!
Verification of the AMQP 0-9-1 protocol engine embedded in this repository:
the pamqp frame codec (`src/python_related/pamqp/frame.py`) and the
amqpstorm connection / channel / heartbeat / RPC machinery
(`src/python_related/amqpstorm/`).  Byte strings are modelled as `List Nat`
of values below 256, Python dicts as functions into `Option`, and raised
exceptions as explicit error values.
-/

deriving instance DecidableEq for Except

namespace AmqpStorm

/-! ### Big-endian integer encodings (struct.pack / struct.unpack) -/

/-- Big-endian two-byte encoding of an unsigned 16-bit integer,
models `struct.pack` with format `>H`. -/
def u16be (n : Nat) : List Nat := [n / 2 ^ 8 % 256, n % 256]

/-- Big-endian four-byte encoding of an unsigned 32-bit integer,
models `struct.pack` with format `>I`. -/
def u32be (n : Nat) : List Nat :=
  [n / 2 ^ 24 % 256, n / 2 ^ 16 % 256, n / 2 ^ 8 % 256, n % 256]

/-- Big-endian eight-byte encoding of an unsigned 64-bit integer,
models `struct.pack` with format `>Q`. -/
def u64be (n : Nat) : List Nat :=
  [n / 2 ^ 56 % 256, n / 2 ^ 48 % 256, n / 2 ^ 40 % 256, n / 2 ^ 32 % 256,
   n / 2 ^ 24 % 256, n / 2 ^ 16 % 256, n / 2 ^ 8 % 256, n % 256]

theorem u16be_val (c : Nat) (h : c < 2 ^ 16) :
    c / 2 ^ 8 % 256 * 256 + c % 256 = c := by omega

theorem u32be_val (n : Nat) (h : n < 2 ^ 32) :
    ((n / 2 ^ 24 % 256 * 256 + n / 2 ^ 16 % 256) * 256 + n / 2 ^ 8 % 256) * 256
      + n % 256 = n := by omega

theorem u64be_val (n : Nat) (h : n < 2 ^ 64) :
    ((((((n / 2 ^ 56 % 256 * 256 + n / 2 ^ 48 % 256) * 256 + n / 2 ^ 40 % 256) * 256
      + n / 2 ^ 32 % 256) * 256 + n / 2 ^ 24 % 256) * 256 + n / 2 ^ 16 % 256) * 256
      + n / 2 ^ 8 % 256) * 256 + n % 256 = n := by omega

/-! ### Frame data model (pamqp) -/

/-- The five frame variants handled by `pamqp/frame.py`: `header.ProtocolHeader`,
`heartbeat.Heartbeat`, `specification.Frame` (method frames),
`header.ContentHeader` and `body.ContentBody`.

Modelled from the spec: the pamqp `specification`, `header`, `heartbeat` and
`body` modules are not part of this repository snapshot (only `frame.py` is),
so per the spec a method frame carries its 32-bit class+method index plus its
encoded field bytes with a fixed layout, and a content header carries
class id, weight, the u64 body size and its encoded property bytes. -/
inductive Frame where
  | protocolHeader : Frame
  | heartbeat : Frame
  | method (index : Nat) (fields : List Nat) : Frame
  | contentHeader (classId weight bodySize : Nat) (properties : List Nat) : Frame
  | contentBody (value : List Nat) : Frame
  deriving DecidableEq, Repr

/-- `specification.FRAME_METHOD`. -/
def FRAME_METHOD : Nat := 1
/-- `specification.FRAME_HEADER` (content header frame type). -/
def FRAME_HEADER : Nat := 2
/-- `specification.FRAME_BODY`. -/
def FRAME_BODY : Nat := 3
/-- `specification.FRAME_HEARTBEAT`. -/
def FRAME_HEARTBEAT : Nat := 8
/-- `specification.FRAME_END` (the `0xCE` end marker). -/
def FRAME_END : Nat := 206
/-- `frame.FRAME_HEADER_SIZE`. -/
def FRAME_HEADER_SIZE : Nat := 7
/-- The literal `AMQP` preamble bytes checked by `_unmarshal_protocol_header_frame`. -/
def AMQP : List Nat := [65, 77, 81, 80]
/-- Modelled from the spec: the fixed 8-byte handshake preamble written by
`header.ProtocolHeader.marshal`, the ASCII `AMQP` followed by `00 00 09 01`. -/
def AMQP_PREAMBLE : List Nat := [65, 77, 81, 80, 0, 0, 9, 1]

/-- Modelled from the spec: the registry of typed method decoders keyed by the
32-bit class+method index (`specification.INDEX_MAPPING` is not part of this
repository snapshot).  Entries cover the Connection, Channel, Basic and Tx
class methods named by the spec. -/
def INDEX_MAPPING : List Nat :=
  [655370, 655371, 655390, 655391, 655400, 655401, 655410, 655411,
   1310730, 1310731, 1310760, 1310761,
   3932170, 3932171, 3932180, 3932181, 3932200, 3932220, 3932230, 3932231,
   3932240, 3932280,
   5898250, 5898251, 5898260, 5898261, 5898270, 5898271]

/-- The distinct failure messages raised as `exceptions.UnmarshalingException`
by `pamqp/frame.py` (plus the `struct.error` escapes for truncated fixed
fields inside a payload, which cannot arise from a marshalled frame). -/
inductive UnmarshalError where
  | protocolHeaderError : UnmarshalError
  | noFrameSize : UnmarshalError
  | notAllDataReceived : UnmarshalError
  | lastByteError : UnmarshalError
  | structError : UnmarshalError
  | unknownMethodIndex (index : Nat) : UnmarshalError
  | unknownFrameType (frameType : Nat) : UnmarshalError
  deriving DecidableEq, Repr

/-! ### marshal (pamqp.frame.marshal) -/

/-- `frame._marshal`: the generic envelope
`(frame_type : u8, channel_id : u16, payload_size : u32) + payload + 0xCE`. -/
def marshalEnvelope (frameType channelId : Nat) (payload : List Nat) : List Nat :=
  frameType :: (u16be channelId ++ (u32be payload.length ++ (payload ++ [FRAME_END])))

/-- `frame.marshal`: dispatch on the frame variant.  For `ProtocolHeader` and
`Heartbeat` the source calls `frame_value.marshal()` without passing
`channel_id`, so their encodings are fixed byte strings on channel 0. -/
def marshal (frameValue : Frame) (channelId : Nat) : List Nat :=
  match frameValue with
  | .protocolHeader => AMQP_PREAMBLE
  | .heartbeat => marshalEnvelope FRAME_HEARTBEAT 0 []
  | .method index fields =>
      marshalEnvelope FRAME_METHOD channelId (u32be index ++ fields)
  | .contentHeader classId weight bodySize properties =>
      marshalEnvelope FRAME_HEADER channelId
        (u16be classId ++ (u16be weight ++ (u64be bodySize ++ properties)))
  | .contentBody value => marshalEnvelope FRAME_BODY channelId value

/-! ### unmarshal (pamqp.frame.unmarshal) -/

/-- `frame.frame_parts`: `struct.unpack` of the 7-byte header
`(frame_type : u8, channel_id : u16, payload_size : u32)`.  On fewer than 7
bytes the source returns `UNMARSHAL_FAILURE = (0, 0, None)`, modelled here as
`(0, 0, none)`. -/
def frame_parts (dataIn : List Nat) : Nat × Nat × Option Nat :=
  match dataIn with
  | b0 :: b1 :: b2 :: b3 :: b4 :: b5 :: b6 :: _ =>
      (b0, b1 * 256 + b2, some (((b3 * 256 + b4) * 256 + b5) * 256 + b6))
  | _ => (0, 0, none)

/-- The frame-type component of `frame_parts`. -/
def frame_type_of (dataIn : List Nat) : Nat := (frame_parts dataIn).1

/-- The channel-id component of `frame_parts`. -/
def channel_of (dataIn : List Nat) : Nat := (frame_parts dataIn).2.1

/-- The payload-size component of `frame_parts` (`none` for a short header). -/
def frame_size_of (dataIn : List Nat) : Option Nat := (frame_parts dataIn).2.2

/-- `frame._unmarshal_method_frame`: read the 4-byte method index, look it up
in the method registry, and decode the remaining field bytes (the field codec
is the opaque part modelled from the spec). -/
def unmarshal_method_frame (frameData : List Nat) : Except UnmarshalError Frame :=
  match frameData with
  | a :: b :: c :: d :: rest =>
      let methodIndex := ((a * 256 + b) * 256 + c) * 256 + d
      if methodIndex ∈ INDEX_MAPPING then .ok (.method methodIndex rest)
      else .error (.unknownMethodIndex methodIndex)
  | _ => .error .structError

/-- `frame._unmarshal_header_frame`; following the spec the content-header
payload begins with `u16 class_id`, `u16 weight`, `u64 body_size`, followed by
the encoded property flags and values. -/
def unmarshal_header_frame (frameData : List Nat) : Except UnmarshalError Frame :=
  match frameData with
  | c1 :: c0 :: w1 :: w0 :: s7 :: s6 :: s5 :: s4 :: s3 :: s2 :: s1 :: s0 :: props =>
      .ok (.contentHeader (c1 * 256 + c0) (w1 * 256 + w0)
        (((((((s7 * 256 + s6) * 256 + s5) * 256 + s4) * 256 + s3) * 256 + s2) * 256
          + s1) * 256 + s0) props)
  | _ => .error .structError

/-- `frame.unmarshal`: returns `(bytes consumed, channel id, frame)` or the
typed decode error, following the source's order of checks: protocol-header
preamble, 7-byte header, heartbeat shortcut (`frame_type == FRAME_HEARTBEAT
and frame_size == 0`), the truthiness test `if not frame_size` (hit both by a
zero size and by the `(0, 0, None)` header-unpack failure, hence the
`Option.getD 0`), completeness (`byte_count > len(data_in)`), the `0xCE` end
marker at `byte_count - 1`, then dispatch on the frame type. -/
def unmarshal (dataIn : List Nat) : Except UnmarshalError (Nat × Nat × Frame) :=
  if dataIn.take 4 = AMQP then
    if dataIn.take 8 = AMQP_PREAMBLE then .ok (8, 0, .protocolHeader)
    else .error .protocolHeaderError
  else if frame_type_of dataIn = FRAME_HEARTBEAT ∧ frame_size_of dataIn = some 0 then
    .ok (8, channel_of dataIn, .heartbeat)
  else if (frame_size_of dataIn).getD 0 = 0 then .error .noFrameSize
  else if dataIn.length < FRAME_HEADER_SIZE + (frame_size_of dataIn).getD 0 + 1 then
    .error .notAllDataReceived
  else if dataIn.getD (FRAME_HEADER_SIZE + (frame_size_of dataIn).getD 0) 0 ≠ FRAME_END then
    .error .lastByteError
  else if frame_type_of dataIn = FRAME_METHOD then
    (unmarshal_method_frame
        ((dataIn.drop FRAME_HEADER_SIZE).take ((frame_size_of dataIn).getD 0))).map
      (fun f => (FRAME_HEADER_SIZE + (frame_size_of dataIn).getD 0 + 1, channel_of dataIn, f))
  else if frame_type_of dataIn = FRAME_HEADER then
    (unmarshal_header_frame
        ((dataIn.drop FRAME_HEADER_SIZE).take ((frame_size_of dataIn).getD 0))).map
      (fun f => (FRAME_HEADER_SIZE + (frame_size_of dataIn).getD 0 + 1, channel_of dataIn, f))
  else if frame_type_of dataIn = FRAME_BODY then
    .ok (FRAME_HEADER_SIZE + (frame_size_of dataIn).getD 0 + 1, channel_of dataIn,
      .contentBody ((dataIn.drop FRAME_HEADER_SIZE).take ((frame_size_of dataIn).getD 0)))
  else .error (.unknownFrameType (frame_type_of dataIn))

/-! ### Round-trip lemmas for the codec -/

theorem take_four (a b c d : Nat) (l : List Nat) :
    (a :: b :: c :: d :: l).take 4 = [a, b, c, d] := rfl

theorem getD_append_length (l₁ l₂ : List Nat) (n x : Nat) :
    (l₁ ++ l₂).getD (l₁.length + n) x = l₂.getD n x := by
  induction l₁ with
  | nil => simp
  | cons a t ih =>
    have h : t.length + 1 + n = t.length + n + 1 := by omega
    simp only [List.cons_append, List.length_cons, h, List.getD_cons_succ]
    exact ih

theorem frame_parts_cons (b0 b1 b2 b3 b4 b5 b6 : Nat) (l : List Nat) :
    frame_parts (b0 :: b1 :: b2 :: b3 :: b4 :: b5 :: b6 :: l) =
      (b0, b1 * 256 + b2, some (((b3 * 256 + b4) * 256 + b5) * 256 + b6)) := rfl

/-- The 7 header bytes produced by `_marshal` for a given frame type, channel
and payload length. -/
def envelopeHead (t c L : Nat) : List Nat :=
  [t, c / 2 ^ 8 % 256, c % 256, L / 2 ^ 24 % 256, L / 2 ^ 16 % 256, L / 2 ^ 8 % 256, L % 256]

theorem marshalEnvelope_eq (t c : Nat) (payload : List Nat) :
    marshalEnvelope t c payload =
      envelopeHead t c payload.length ++ (payload ++ [FRAME_END]) := by
  simp [marshalEnvelope, envelopeHead, u16be, u32be]

theorem envelopeHead_length (t c L : Nat) : (envelopeHead t c L).length = 7 := rfl

theorem envelopeHead_parts (t c L : Nat) (tail : List Nat)
    (hc : c < 2 ^ 16) (hL : L < 2 ^ 32) :
    frame_parts (envelopeHead t c L ++ tail) = (t, c, some L) := by
  simp only [envelopeHead, List.cons_append, List.nil_append]
  rw [frame_parts_cons, u16be_val c hc, u32be_val L hL]

theorem envelopeHead_take4 (t c L : Nat) (tail : List Nat) (ht : t ≠ 65) :
    (envelopeHead t c L ++ tail).take 4 ≠ AMQP := by
  simp only [envelopeHead, List.cons_append, List.nil_append, take_four]
  intro h
  simp [AMQP] at h
  exact ht h.1

theorem marshalEnvelope_parts (t c : Nat) (payload : List Nat)
    (hc : c < 2 ^ 16) (hlen : payload.length < 2 ^ 32) :
    frame_parts (marshalEnvelope t c payload) = (t, c, some payload.length) := by
  rw [marshalEnvelope_eq]
  exact envelopeHead_parts t c payload.length _ hc hlen

theorem marshalEnvelope_length (t c : Nat) (payload : List Nat) :
    (marshalEnvelope t c payload).length = payload.length + 8 := by
  rw [marshalEnvelope_eq]
  simp [envelopeHead]

theorem marshalEnvelope_take4 (t c : Nat) (payload : List Nat) (ht : t ≠ 65) :
    (marshalEnvelope t c payload).take 4 ≠ AMQP := by
  rw [marshalEnvelope_eq]
  exact envelopeHead_take4 t c payload.length _ ht

theorem marshalEnvelope_end (t c : Nat) (payload : List Nat) :
    (marshalEnvelope t c payload).getD (FRAME_HEADER_SIZE + payload.length) 0 = FRAME_END := by
  rw [marshalEnvelope_eq]
  have h7 : FRAME_HEADER_SIZE + payload.length =
      (envelopeHead t c payload.length).length + payload.length := by
    rw [envelopeHead_length]
    rfl
  rw [h7, getD_append_length]
  have h2 := getD_append_length payload [FRAME_END] 0 0
  simp only [Nat.add_zero] at h2
  rw [h2]
  rfl

theorem marshalEnvelope_frameData (t c : Nat) (payload : List Nat) :
    ((marshalEnvelope t c payload).drop FRAME_HEADER_SIZE).take payload.length = payload := by
  rw [marshalEnvelope_eq]
  have h7 : FRAME_HEADER_SIZE = (envelopeHead t c payload.length).length := rfl
  rw [h7, List.drop_left]
  exact List.take_left _ _

/-- Evaluation of `unmarshal` on a marshalled generic envelope with a
non-empty payload: all envelope checks pass and control reaches the
frame-type dispatch. -/
theorem unmarshal_marshalEnvelope (t c : Nat) (payload : List Nat)
    (ht65 : t ≠ 65) (hc : c < 2 ^ 16) (hp : payload ≠ [])
    (hlen : payload.length < 2 ^ 32) :
    unmarshal (marshalEnvelope t c payload) =
      if t = FRAME_METHOD then
        (unmarshal_method_frame payload).map
          (fun f => (FRAME_HEADER_SIZE + payload.length + 1, c, f))
      else if t = FRAME_HEADER then
        (unmarshal_header_frame payload).map
          (fun f => (FRAME_HEADER_SIZE + payload.length + 1, c, f))
      else if t = FRAME_BODY then
        .ok (FRAME_HEADER_SIZE + payload.length + 1, c, .contentBody payload)
      else .error (.unknownFrameType t) := by
  have hL : 0 < payload.length := List.length_pos.mpr hp
  have hparts := marshalEnvelope_parts t c payload hc hlen
  have htype : frame_type_of (marshalEnvelope t c payload) = t := by
    simp [frame_type_of, hparts]
  have hchan : channel_of (marshalEnvelope t c payload) = c := by
    simp [channel_of, hparts]
  have hsize : frame_size_of (marshalEnvelope t c payload) = some payload.length := by
    simp [frame_size_of, hparts]
  rw [unmarshal, if_neg (marshalEnvelope_take4 t c payload ht65), htype, hchan, hsize]
  simp only [Option.getD_some]
  have hhb : ¬(t = FRAME_HEARTBEAT ∧ (some payload.length = some (0 : Nat))) := by
    intro hand
    have h2 : payload.length = 0 := Option.some.inj hand.2
    omega
  rw [if_neg hhb]
  have hsz0 : ¬(payload.length = 0) := by omega
  rw [if_neg hsz0]
  have hlt : ¬((marshalEnvelope t c payload).length <
      FRAME_HEADER_SIZE + payload.length + 1) := by
    rw [marshalEnvelope_length]
    show ¬(payload.length + 8 < 7 + payload.length + 1)
    omega
  rw [if_neg hlt]
  have hendcond : ¬((marshalEnvelope t c payload).getD
      (FRAME_HEADER_SIZE + payload.length) 0 ≠ FRAME_END) :=
    fun h => h (marshalEnvelope_end t c payload)
  rw [if_neg hendcond, marshalEnvelope_frameData]

/-- Validity conditions a frame must satisfy for its wire encoding to be
well-formed: a method index present in the registry, integer fields within
their wire widths, and a non-empty content-body chunk (the codec rejects an
empty payload with a no-frame-size error). -/
def ValidFrame : Frame → Prop
  | .protocolHeader => True
  | .heartbeat => True
  | .method index fields =>
      index ∈ INDEX_MAPPING ∧ index < 2 ^ 32 ∧ 4 + fields.length < 2 ^ 32
  | .contentHeader classId weight bodySize properties =>
      classId < 2 ^ 16 ∧ weight < 2 ^ 16 ∧ bodySize < 2 ^ 64 ∧
        12 + properties.length < 2 ^ 32
  | .contentBody value => value ≠ [] ∧ value.length < 2 ^ 32

instance (f : Frame) : Decidable (ValidFrame f) :=
  match f with
  | .protocolHeader => .isTrue trivial
  | .heartbeat => .isTrue trivial
  | .method index fields =>
      (inferInstance : Decidable
        (index ∈ INDEX_MAPPING ∧ index < 2 ^ 32 ∧ 4 + fields.length < 2 ^ 32))
  | .contentHeader classId weight bodySize properties =>
      (inferInstance : Decidable
        (classId < 2 ^ 16 ∧ weight < 2 ^ 16 ∧ bodySize < 2 ^ 64 ∧
          12 + properties.length < 2 ^ 32))
  | .contentBody value =>
      (inferInstance : Decidable (value ≠ [] ∧ value.length < 2 ^ 32))

/-- The channel id actually encoded by `marshal`: for `ProtocolHeader` and
`Heartbeat` the source calls `frame_value.marshal()` without passing the
channel id, so those two variants always encode channel 0. -/
def marshalChannel (f : Frame) (channelId : Nat) : Nat :=
  match f with
  | .protocolHeader => 0
  | .heartbeat => 0
  | _ => channelId

/-- C1 (amended): for every valid frame and channel id below 2^16,
`unmarshal (marshal f c)` consumes the full marshalled byte length and
returns the frame unchanged; the reported channel id is `c` for method,
content-header and content-body frames, but 0 for `ProtocolHeader` and
`Heartbeat`, whose encodings ignore the requested channel. -/
theorem marshal_unmarshal_roundtrip (f : Frame) (c : Nat) (hc : c < 2 ^ 16)
    (hv : ValidFrame f) :
    unmarshal (marshal f c) = .ok ((marshal f c).length, marshalChannel f c, f) := by
  cases f with
  | protocolHeader => rfl
  | heartbeat => rfl
  | method index fields =>
    obtain ⟨hmem, hidx, hflen⟩ := hv
    have hpay : (u32be index ++ fields) ≠ [] := by simp [u32be]
    have hpl : (u32be index ++ fields).length < 2 ^ 32 := by
      simp only [List.length_append, u32be, List.length_cons, List.length_nil]
      omega
    show unmarshal (marshalEnvelope FRAME_METHOD c (u32be index ++ fields)) = _
    rw [unmarshal_marshalEnvelope FRAME_METHOD c _ (by decide) hc hpay hpl,
      if_pos rfl]
    have hm : unmarshal_method_frame (u32be index ++ fields) =
        .ok (.method index fields) := by
      simp only [u32be, List.cons_append, List.nil_append, unmarshal_method_frame]
      rw [u32be_val index hidx]
      rw [if_pos hmem]
    rw [hm]
    show Except.ok (FRAME_HEADER_SIZE + (u32be index ++ fields).length + 1, c,
        Frame.method index fields) = _
    have hml : (marshal (Frame.method index fields) c).length =
        (u32be index ++ fields).length + 8 := marshalEnvelope_length _ _ _
    rw [hml]
    have harith : FRAME_HEADER_SIZE + (u32be index ++ fields).length + 1 =
        (u32be index ++ fields).length + 8 := by
      show 7 + (u32be index ++ fields).length + 1 = (u32be index ++ fields).length + 8
      omega
    rw [harith]
    rfl
  | contentHeader classId weight bodySize properties =>
    obtain ⟨hcid, hw, hbs, hplen⟩ := hv
    have hpay : (u16be classId ++ (u16be weight ++ (u64be bodySize ++ properties))) ≠ [] := by
      simp [u16be]
    have hpl : (u16be classId ++ (u16be weight ++ (u64be bodySize ++ properties))).length
        < 2 ^ 32 := by
      simp only [List.length_append, u16be, u64be, List.length_cons, List.length_nil]
      omega
    show unmarshal (marshalEnvelope FRAME_HEADER c
        (u16be classId ++ (u16be weight ++ (u64be bodySize ++ properties)))) = _
    rw [unmarshal_marshalEnvelope FRAME_HEADER c _ (by decide) hc hpay hpl,
      if_neg (by decide), if_pos rfl]
    have hm : unmarshal_header_frame
        (u16be classId ++ (u16be weight ++ (u64be bodySize ++ properties))) =
        .ok (.contentHeader classId weight bodySize properties) := by
      simp only [u16be, u64be, List.cons_append, List.nil_append, unmarshal_header_frame]
      rw [u16be_val classId hcid, u16be_val weight hw, u64be_val bodySize hbs]
    rw [hm]
    show Except.ok (FRAME_HEADER_SIZE +
        (u16be classId ++ (u16be weight ++ (u64be bodySize ++ properties))).length + 1, c,
        Frame.contentHeader classId weight bodySize properties) = _
    have hml : (marshal (Frame.contentHeader classId weight bodySize properties) c).length =
        (u16be classId ++ (u16be weight ++ (u64be bodySize ++ properties))).length + 8 :=
      marshalEnvelope_length _ _ _
    rw [hml]
    have harith : FRAME_HEADER_SIZE +
        (u16be classId ++ (u16be weight ++ (u64be bodySize ++ properties))).length + 1 =
        (u16be classId ++ (u16be weight ++ (u64be bodySize ++ properties))).length + 8 := by
      show 7 + _ + 1 = _ + 8
      omega
    rw [harith]
    rfl
  | contentBody value =>
    obtain ⟨hne, hvl⟩ := hv
    show unmarshal (marshalEnvelope FRAME_BODY c value) = _
    rw [unmarshal_marshalEnvelope FRAME_BODY c _ (by decide) hc hne hvl,
      if_neg (by decide), if_neg (by decide), if_pos rfl]
    show Except.ok (FRAME_HEADER_SIZE + value.length + 1, c, Frame.contentBody value) = _
    have hml : (marshal (Frame.contentBody value) c).length = value.length + 8 :=
      marshalEnvelope_length _ _ _
    rw [hml]
    have harith : FRAME_HEADER_SIZE + value.length + 1 = value.length + 8 := by
      show 7 + value.length + 1 = value.length + 8
      omega
    rw [harith]
    rfl

/-- C1 counterexample: a heartbeat frame marshalled on channel 5 round-trips
to channel 0, not channel 5, because `marshal` calls `Heartbeat.marshal()`
without the channel id. -/
theorem roundtrip_drops_heartbeat_channel :
    unmarshal (marshal Frame.heartbeat 5) = .ok (8, 0, Frame.heartbeat) ∧
    unmarshal (marshal Frame.heartbeat 5) ≠
      .ok ((marshal Frame.heartbeat 5).length, 5, Frame.heartbeat) := by
  decide

/-- C1 witness: the round trip evaluated on a concrete Basic.Publish method
frame on channel 3. -/
theorem marshal_unmarshal_roundtrip_witness :
    (3 : Nat) < 2 ^ 16 ∧ ValidFrame (Frame.method 3932200 [7, 8]) ∧
    unmarshal (marshal (Frame.method 3932200 [7, 8]) 3) =
      .ok ((marshal (Frame.method 3932200 [7, 8]) 3).length,
        marshalChannel (Frame.method 3932200 [7, 8]) 3, Frame.method 3932200 [7, 8]) :=
  ⟨by decide, by decide,
    marshal_unmarshal_roundtrip (Frame.method 3932200 [7, 8]) 3 (by decide) (by decide)⟩

/-! ### Frame envelope invariant (end marker) and truncation errors -/

/-- C3 (amended): for any complete non-handshake frame whose declared payload
size is nonzero, a corrupted byte at offset `7 + payload_size` makes
`unmarshal` fail with the last-byte error.  The nonzero-size condition is
forced: the heartbeat shortcut (`frame_type = 8`, `payload_size = 0`) returns
before the end-marker check. -/
theorem corrupted_end_byte_fails (d : List Nat) (t c s : Nat)
    (hpre : d.take 4 ≠ AMQP)
    (hparts : frame_parts d = (t, c, some s))
    (hs : 0 < s)
    (hfull : FRAME_HEADER_SIZE + s + 1 ≤ d.length)
    (hbad : d.getD (FRAME_HEADER_SIZE + s) 0 ≠ FRAME_END) :
    unmarshal d = .error .lastByteError := by
  have htype : frame_type_of d = t := by simp [frame_type_of, hparts]
  have hsize : frame_size_of d = some s := by simp [frame_size_of, hparts]
  rw [unmarshal, if_neg hpre, htype, hsize]
  simp only [Option.getD_some]
  have hhb : ¬(t = FRAME_HEARTBEAT ∧ (some s = some (0 : Nat))) := by
    intro hand
    have h2 : s = 0 := Option.some.inj hand.2
    omega
  rw [if_neg hhb]
  rw [if_neg (by omega : ¬(s = 0))]
  rw [if_neg (by omega : ¬(d.length < FRAME_HEADER_SIZE + s + 1))]
  rw [if_pos hbad]

/-- C3 counterexample: an 8-byte frame of heartbeat type with zero payload
size parses successfully as a Heartbeat even though the byte at offset
`7 + payload_size` is 0, not the 0xCE end marker — no last-byte error, no
error at all. -/
theorem heartbeat_skips_end_marker_check :
    unmarshal [8, 0, 0, 0, 0, 0, 0, 0] = .ok (8, 0, Frame.heartbeat) ∧
    ([8, 0, 0, 0, 0, 0, 0, 0] : List Nat).getD (7 + 0) 0 ≠ FRAME_END := by
  decide

/-- C3 witness: a complete method frame on channel 1 with 1 payload byte and
its end marker overwritten by 0 fails with the last-byte error. -/
theorem corrupted_end_byte_fails_witness :
    frame_parts [1, 0, 1, 0, 0, 0, 1, 42, 0] = (1, 1, some 1) ∧
    unmarshal [1, 0, 1, 0, 0, 0, 1, 42, 0] = .error .lastByteError :=
  ⟨by decide,
    corrupted_end_byte_fails [1, 0, 1, 0, 0, 0, 1, 42, 0] 1 1 1
      (by decide) (by decide) (by decide) (by decide) (by decide)⟩

/-- C8 (amended): truncating a marshalled non-handshake, non-heartbeat frame
anywhere at or after its 7-byte header but before its full
`7 + payload_size + 1` envelope yields the not-enough-data error, which is a
different error value from the corrupt-data errors (malformed end marker,
unknown method index, missing frame size).  The at-least-7-bytes condition is
forced: a shorter prefix fails the header unpack and yields the
no-frame-size error instead. -/
theorem truncated_frame_not_enough_data (t c : Nat) (payload : List Nat) (k : Nat)
    (ht : t = FRAME_METHOD ∨ t = FRAME_HEADER ∨ t = FRAME_BODY)
    (hc : c < 2 ^ 16) (hp : payload ≠ []) (hlen : payload.length < 2 ^ 32)
    (hk7 : 7 ≤ k) (hk : k < (marshalEnvelope t c payload).length) :
    unmarshal ((marshalEnvelope t c payload).take k) = .error .notAllDataReceived ∧
    UnmarshalError.notAllDataReceived ≠ UnmarshalError.lastByteError ∧
    UnmarshalError.notAllDataReceived ≠ UnmarshalError.noFrameSize ∧
    ∀ i : Nat, UnmarshalError.notAllDataReceived ≠ UnmarshalError.unknownMethodIndex i := by
  refine ⟨?_, by decide, by decide, fun i => by intro h; cases h⟩
  have ht65 : t ≠ 65 := by
    rcases ht with h | h | h <;> (rw [h]; decide)
  have ht8 : t ≠ FRAME_HEARTBEAT := by
    rcases ht with h | h | h <;> (rw [h]; decide)
  have hL : 0 < payload.length := List.length_pos.mpr hp
  have hdlen : (marshalEnvelope t c payload).length = payload.length + 8 :=
    marshalEnvelope_length t c payload
  -- expose the truncation as `envelopeHead ++ (shorter tail)`
  have hsplit : (marshalEnvelope t c payload).take k =
      envelopeHead t c payload.length ++ ((payload ++ [FRAME_END]).take (k - 7)) := by
    rw [marshalEnvelope_eq]
    have h7 : k = (envelopeHead t c payload.length).length + (k - 7) := by
      rw [envelopeHead_length]
      omega
    conv_lhs => rw [h7]
    exact List.take_append (k - 7)
  have hparts : frame_parts ((marshalEnvelope t c payload).take k) =
      (t, c, some payload.length) := by
    rw [hsplit]
    exact envelopeHead_parts t c payload.length _ hc hlen
  have htype : frame_type_of ((marshalEnvelope t c payload).take k) = t := by
    simp [frame_type_of, hparts]
  have hsize : frame_size_of ((marshalEnvelope t c payload).take k) =
      some payload.length := by
    simp [frame_size_of, hparts]
  have hpre : ((marshalEnvelope t c payload).take k).take 4 ≠ AMQP := by
    rw [hsplit]
    exact envelopeHead_take4 t c payload.length _ ht65
  have hklen : ((marshalEnvelope t c payload).take k).length = k := by
    rw [List.length_take]
    omega
  rw [unmarshal, if_neg hpre, htype, hsize]
  simp only [Option.getD_some]
  have hhb : ¬(t = FRAME_HEARTBEAT ∧ (some payload.length = some (0 : Nat))) := by
    intro hand
    exact ht8 hand.1
  rw [if_neg hhb]
  rw [if_neg (by omega : ¬(payload.length = 0))]
  have hshort : ((marshalEnvelope t c payload).take k).length <
      FRAME_HEADER_SIZE + payload.length + 1 := by
    rw [hklen]
    show k < 7 + payload.length + 1
    omega
  rw [if_pos hshort]

/-- C8 counterexample: a prefix of a valid method frame shorter than the
7-byte header does not yield the not-enough-data error: the header unpack
fails and `unmarshal` reports the no-frame-size error instead. -/
theorem short_prefix_yields_no_frame_size :
    unmarshal ((marshal (Frame.method 655370 [0]) 0).take 3) = .error .noFrameSize ∧
    UnmarshalError.noFrameSize ≠ UnmarshalError.notAllDataReceived := by
  decide

/-- C8 witness: the first 7 bytes of a marshalled Connection.Start method
frame yield the not-enough-data error. -/
theorem truncated_frame_not_enough_data_witness :
    (7 : Nat) ≤ 7 ∧ 7 < (marshalEnvelope 1 0 (u32be 655370 ++ [0])).length ∧
    unmarshal ((marshalEnvelope 1 0 (u32be 655370 ++ [0])).take 7) =
      .error .notAllDataReceived :=
  ⟨by decide, by decide,
    (truncated_frame_not_enough_data 1 0 (u32be 655370 ++ [0]) 7
      (Or.inl rfl) (by decide) (by decide) (by decide) (by decide) (by decide)).1⟩

/-! ### Publish chunking (amqpstorm.basic.Basic._create_content_body) -/

/-- Modelled from the spec: `amqpstorm.base.MAX_FRAME_SIZE` (base.py is not in
the snapshot), the default frame-size proposal of 131072 bytes. -/
def MAX_FRAME_SIZE : Nat := 131072

/-- `Basic._create_content_body`: split the message body into
`int(math.ceil(len(body) / float(max_frame_size)))` ContentBody frames of
slices `body[F * offset : min(F * offset + F, len(body))]`.  The float
ceiling is modelled as the exact natural-number ceiling
`(len + F - 1) / F`. -/
def create_content_body (maxFrameSize : Nat) (body : List Nat) : List Frame :=
  (List.range ((body.length + maxFrameSize - 1) / maxFrameSize)).map
    (fun offset => Frame.contentBody ((body.drop (maxFrameSize * offset)).take maxFrameSize))

/-- The opaque byte payload carried by a ContentBody frame. -/
def contentBodyValue : Frame → List Nat
  | .contentBody v => v
  | _ => []

theorem chunks_join (F : Nat) (body : List Nat) (n : Nat) :
    ((List.range n).map (fun o => (body.drop (F * o)).take F)).flatten = body.take (F * n) := by
  induction n with
  | zero => simp
  | succ n ih =>
    rw [List.range_succ, List.map_append, List.flatten_append, ih]
    simp only [List.map_cons, List.map_nil, List.flatten_cons, List.flatten_nil, List.append_nil]
    rw [← List.take_add, Nat.mul_succ]

theorem le_mul_ceil (F N : Nat) (hF : 0 < F) : N ≤ F * ((N + F - 1) / F) := by
  rcases Nat.eq_zero_or_pos N with h0 | hpos
  · subst h0
    simp
  · have hq := Nat.div_add_mod (N + F - 1) F
    have hr : (N + F - 1) % F < F := Nat.mod_lt _ hF
    set q := (N + F - 1) / F with hqdef
    set r := (N + F - 1) % F with hrdef
    set m := F * q with hmdef
    omega

/-- C2: chunking a body of N bytes with a positive max frame size F yields
exactly `ceil(N / F)` frames, every frame is a ContentBody of at most F
bytes, and the concatenation of the chunk payloads in order is the original
body. -/
theorem create_content_body_spec (F : Nat) (hF : 0 < F) (body : List Nat) :
    (create_content_body F body).length = (body.length + F - 1) / F ∧
    (∀ fr ∈ create_content_body F body, ∃ v, fr = Frame.contentBody v ∧ v.length ≤ F) ∧
    ((create_content_body F body).map contentBodyValue).flatten = body := by
  refine ⟨?_, ?_, ?_⟩
  · simp [create_content_body]
  · intro fr hfr
    simp only [create_content_body, List.mem_map, List.mem_range] at hfr
    obtain ⟨o, ho, rfl⟩ := hfr
    refine ⟨_, rfl, ?_⟩
    rw [List.length_take]
    exact min_le_left _ _
  · have hmm : (create_content_body F body).map contentBodyValue =
        (List.range ((body.length + F - 1) / F)).map
          (fun o => (body.drop (F * o)).take F) := by
      simp [create_content_body, List.map_map, Function.comp, contentBodyValue]
    rw [hmm, chunks_join]
    exact List.take_of_length_le (le_mul_ceil F body.length hF)

/-- C2 witness: a 7-byte body with max frame size 3 produces three chunks
`[1,2,3] [4,5,6] [7]` whose concatenation is the body. -/
theorem create_content_body_spec_witness :
    (0 : Nat) < 3 ∧
    ((create_content_body 3 [1, 2, 3, 4, 5, 6, 7]).length =
        (([1, 2, 3, 4, 5, 6, 7] : List Nat).length + 3 - 1) / 3 ∧
      (∀ fr ∈ create_content_body 3 [1, 2, 3, 4, 5, 6, 7],
        ∃ v, fr = Frame.contentBody v ∧ v.length ≤ 3) ∧
      ((create_content_body 3 [1, 2, 3, 4, 5, 6, 7]).map contentBodyValue).flatten =
        [1, 2, 3, 4, 5, 6, 7]) :=
  ⟨by decide, create_content_body_spec 3 (by decide) [1, 2, 3, 4, 5, 6, 7]⟩

/-! ### Errors (amqpstorm.exception) -/

/-- The amqpstorm exception taxonomy used by the modelled components. -/
inductive AMQPError where
  | connectionError (message : String) : AMQPError
  | channelError (message : String) : AMQPError
  | invalidArgument (message : String) : AMQPError
  deriving DecidableEq, Repr

/-! ### Heartbeat monitor (amqpstorm.heartbeat.Heartbeat) -/

/-- The mutable fields of `heartbeat.Heartbeat`: the `_running` event, the
consecutive-miss counter `_threshold`, the read/write activity counters and
the configured interval. -/
structure Heartbeat where
  running : Bool
  threshold : Nat
  readsSinceCheck : Nat
  writesSinceCheck : Nat
  interval : Nat
  deriving DecidableEq, Repr

/-- The `AMQPConnectionError` message built by
`Heartbeat._raise_or_append_exception`. -/
def connection_dead_message (interval : Nat) : String :=
  "Connection dead, no heartbeat or data received in >= " ++ toString (interval * 2) ++ "s"

/-- The observable outcome of one `_check_for_life_signs` call: its boolean
return value (true exactly when `_start_new_timer` scheduled another tick),
the updated state, the shared exception list, and whether a heartbeat frame
was sent. -/
structure TickResult where
  rescheduled : Bool
  state : Heartbeat
  errors : List AMQPError
  sentHeartbeat : Bool
  deriving DecidableEq, Repr

/-- `Heartbeat._check_for_life_signs`; `errors` is the started monitor's
shared `_exceptions` list (so `_raise_or_append_exception` appends rather
than raising).  A stopped monitor returns immediately; otherwise a heartbeat
frame is sent when nothing was written since the last tick, a read-less tick
increments `_threshold` and at 2 clears `_running`, appends the
connection-dead error and schedules no further tick, and a tick that saw a
read resets `_threshold`; the `finally` block zeroes both activity
counters. -/
def check_for_life_signs (s : Heartbeat) (errors : List AMQPError) : TickResult :=
  if s.running = false then ⟨false, s, errors, false⟩
  else if s.readsSinceCheck = 0 then
    if s.threshold + 1 ≥ 2 then
      ⟨false,
        { s with running := false
                 threshold := s.threshold + 1
                 readsSinceCheck := 0
                 writesSinceCheck := 0 },
        errors ++ [.connectionError (connection_dead_message s.interval)],
        s.writesSinceCheck == 0⟩
    else
      ⟨true,
        { s with threshold := s.threshold + 1
                 readsSinceCheck := 0
                 writesSinceCheck := 0 },
        errors, s.writesSinceCheck == 0⟩
  else
    ⟨true,
      { s with threshold := 0, readsSinceCheck := 0, writesSinceCheck := 0 },
      errors, s.writesSinceCheck == 0⟩

/-- `Heartbeat.register_read`. -/
def register_read (s : Heartbeat) : Heartbeat :=
  { s with readsSinceCheck := s.readsSinceCheck + 1 }

/-- `Heartbeat.register_write`. -/
def register_write (s : Heartbeat) : Heartbeat :=
  { s with writesSinceCheck := s.writesSinceCheck + 1 }

/-- `Heartbeat.start`: returns false and does nothing when the interval is 0,
otherwise sets `_running`, zeroes the counters and schedules the first
tick. -/
def heartbeat_start (s : Heartbeat) : Bool × Heartbeat :=
  if s.interval = 0 then (false, s)
  else (true, { s with running := true
                       threshold := 0
                       readsSinceCheck := 0
                       writesSinceCheck := 0 })

/-- A run of the monitor: before each timer tick, `r` frames are read
(`register_read` is called `r` times, adding `r` to the read counter), then
`_check_for_life_signs` fires.  Returns the final state and exception
list. -/
def runTicks : Heartbeat → List AMQPError → List Nat → Heartbeat × List AMQPError
  | s, errors, [] => (s, errors)
  | s, errors, r :: rest =>
      runTicks
        (check_for_life_signs { s with readsSinceCheck := s.readsSinceCheck + r } errors).state
        (check_for_life_signs { s with readsSinceCheck := s.readsSinceCheck + r } errors).errors
        rest

theorem check_miss_survive (s : Heartbeat) (errors : List AMQPError)
    (hrun : s.running = true) (hreads : s.readsSinceCheck = 0)
    (hth : s.threshold + 1 < 2) :
    check_for_life_signs s errors =
      ⟨true, { s with threshold := s.threshold + 1
                      readsSinceCheck := 0
                      writesSinceCheck := 0 },
        errors, s.writesSinceCheck == 0⟩ := by
  unfold check_for_life_signs
  rw [hrun, hreads]
  rw [if_neg (by decide : ¬(true = false)), if_pos rfl, if_neg (by omega)]

theorem check_miss_dead (s : Heartbeat) (errors : List AMQPError)
    (hrun : s.running = true) (hreads : s.readsSinceCheck = 0)
    (hth : 1 ≤ s.threshold) :
    check_for_life_signs s errors =
      ⟨false, { s with running := false
                       threshold := s.threshold + 1
                       readsSinceCheck := 0
                       writesSinceCheck := 0 },
        errors ++ [.connectionError (connection_dead_message s.interval)],
        s.writesSinceCheck == 0⟩ := by
  unfold check_for_life_signs
  rw [hrun, hreads]
  rw [if_neg (by decide : ¬(true = false)), if_pos rfl, if_pos (by omega)]

theorem check_read_reset (s : Heartbeat) (errors : List AMQPError)
    (hrun : s.running = true) (hreads : s.readsSinceCheck ≠ 0) :
    check_for_life_signs s errors =
      ⟨true, { s with threshold := 0, readsSinceCheck := 0, writesSinceCheck := 0 },
        errors, s.writesSinceCheck == 0⟩ := by
  unfold check_for_life_signs
  rw [hrun]
  rw [if_neg (by decide : ¬(true = false)), if_neg hreads]

/-- Dead detection requires two consecutive read-less ticks: if a run from a
running state with a clean read counter changed the exception list, then
either the reads sequence contains two consecutive zeroes, or the state
already carried a miss (`threshold ≥ 1`) and the very first tick was
read-less. -/
theorem runTicks_dead_needs_double_zero (reads : List Nat) :
    ∀ (s : Heartbeat) (errors : List AMQPError),
      s.running = true → s.readsSinceCheck = 0 →
      (runTicks s errors reads).2 ≠ errors →
      (∃ i, reads[i]? = some 0 ∧ reads[i + 1]? = some 0) ∨
        (1 ≤ s.threshold ∧ reads[0]? = some 0) := by
  induction reads with
  | nil =>
    intro s errors hrun hreads hne
    exact absurd rfl hne
  | cons r rest ih =>
    intro s errors hrun hreads hne
    by_cases hr : r = 0
    · subst hr
      by_cases hth : 1 ≤ s.threshold
      · exact Or.inr ⟨hth, by simp⟩
      · have hth0 : s.threshold + 1 < 2 := by omega
        have hstep : runTicks s errors (0 :: rest) =
            runTicks { s with threshold := s.threshold + 1
                              readsSinceCheck := 0
                              writesSinceCheck := 0 } errors rest := by
          simp only [runTicks]
          rw [check_miss_survive { s with readsSinceCheck := s.readsSinceCheck + 0 } errors
            (by simp [hrun]) (by simp [hreads]) (by simp [hth0])]
        rw [hstep] at hne
        rcases ih _ errors (by simp [hrun]) (by simp) hne with ⟨i, h1, h2⟩ | ⟨-, h0⟩
        · exact Or.inl ⟨i + 1, by simpa using h1, by simpa using h2⟩
        · exact Or.inl ⟨0, by simp, by simpa using h0⟩
    · have hstep : runTicks s errors (r :: rest) =
          runTicks { s with threshold := 0
                            readsSinceCheck := 0
                            writesSinceCheck := 0 } errors rest := by
        simp only [runTicks]
        rw [check_read_reset { s with readsSinceCheck := s.readsSinceCheck + r } errors
          (by simp [hrun]) (by simp [hreads, hr])]
      rw [hstep] at hne
      rcases ih _ errors (by simp [hrun]) (by simp) hne with ⟨i, h1, h2⟩ | ⟨h1, -⟩
      · exact Or.inl ⟨i + 1, by simpa using h1, by simpa using h2⟩
      · simp at h1

/-- C5: while the monitor is running, a read-less tick increments the miss
counter and reschedules; exactly at the second consecutive miss the monitor
appends the connection-dead error (naming `2 * interval` seconds), clears the
running flag and schedules no further tick; a tick that saw at least one read
resets the counter to 0; and over any whole run started with a clean counter,
the error list can only ever change if the reads sequence had two consecutive
read-less ticks. -/
theorem heartbeat_dead_detection :
    (∀ (s : Heartbeat) (errors : List AMQPError),
      s.running = true → s.readsSinceCheck = 0 → s.threshold + 1 < 2 →
        check_for_life_signs s errors =
          ⟨true, { s with threshold := s.threshold + 1
                          readsSinceCheck := 0
                          writesSinceCheck := 0 },
            errors, s.writesSinceCheck == 0⟩) ∧
    (∀ (s : Heartbeat) (errors : List AMQPError),
      s.running = true → s.readsSinceCheck = 0 → s.threshold = 1 →
        check_for_life_signs s errors =
          ⟨false, { s with running := false
                           threshold := 2
                           readsSinceCheck := 0
                           writesSinceCheck := 0 },
            errors ++ [.connectionError (connection_dead_message s.interval)],
            s.writesSinceCheck == 0⟩) ∧
    (∀ (s : Heartbeat) (errors : List AMQPError),
      s.running = true → s.readsSinceCheck ≠ 0 →
        check_for_life_signs s errors =
          ⟨true, { s with threshold := 0, readsSinceCheck := 0, writesSinceCheck := 0 },
            errors, s.writesSinceCheck == 0⟩) ∧
    (∀ (reads : List Nat) (s0 : Heartbeat),
      s0.running = true → s0.threshold = 0 → s0.readsSinceCheck = 0 →
      (runTicks s0 [] reads).2 ≠ [] →
      ∃ i, reads[i]? = some 0 ∧ reads[i + 1]? = some 0) := by
  refine ⟨check_miss_survive, ?_, check_read_reset, ?_⟩
  · intro s errors hrun hreads hth
    have h := check_miss_dead s errors hrun hreads (by omega)
    rw [hth] at h
    exact h
  · intro reads s0 hrun hth hreads hne
    rcases runTicks_dead_needs_double_zero reads s0 [] hrun hreads hne with h | ⟨h1, -⟩
    · exact h
    · omega

/-- C5 witness: a running monitor with one prior miss, no reads and interval
30 is declared dead on this tick: the connection-dead error for 60 seconds is
appended, the running flag cleared, no further tick scheduled. -/
theorem heartbeat_dead_detection_witness :
    check_for_life_signs ⟨true, 1, 0, 0, 30⟩ [] =
      ⟨false, ⟨false, 2, 0, 0, 30⟩,
        [AMQPError.connectionError (connection_dead_message 30)], true⟩ :=
  heartbeat_dead_detection.2.1 ⟨true, 1, 0, 0, 30⟩ [] rfl rfl rfl

/-! ### RPC correlator (amqpstorm.rpc.Rpc) -/

/-- An inbound amqpstorm frame as seen by the correlator: dispatch is purely
by `frame.name`; `payload` distinguishes individual frame instances. -/
structure InFrame where
  name : String
  payload : Nat
  deriving DecidableEq, Repr

/-- The mutable state of an `Rpc` instance: `_request` maps a frame name to
the uuid of the request that currently owns it, `_response` maps a uuid to
its accumulated response frames.  The Python dicts are modelled as functions
into `Option`; the freshness of `str(uuid4())` is modelled by the `nextUuid`
counter. -/
structure Rpc where
  request : String → Option Nat
  response : Nat → Option (List InFrame)
  nextUuid : Nat

/-- A fresh `Rpc` instance (`Rpc.__init__`: both dicts empty). -/
def rpcInit : Rpc := ⟨fun _ => none, fun _ => none, 0⟩

/-- `Rpc.register_request`: pick a fresh uuid, give it an empty response
list, and record it as the owner of every name in `valid_responses`
(overwriting any previous owner of such a name). -/
def register_request (s : Rpc) (validResponses : List String) : Nat × Rpc :=
  (s.nextUuid,
    { request := fun n => if n ∈ validResponses then some s.nextUuid else s.request n
      response := fun u => if u = s.nextUuid then some [] else s.response u
      nextUuid := s.nextUuid + 1 })

/-- `Rpc.on_frame`: if the frame's name is owned by some request, append the
frame to that request's response list and return true (consumed), otherwise
return false.  The `none` result models the `KeyError` Python would raise if
the owning uuid had no response list; it never occurs in reachable states. -/
def on_frame (s : Rpc) (frameIn : InFrame) : Option (Bool × Rpc) :=
  match s.request frameIn.name with
  | none => some (false, s)
  | some uuid =>
    match s.response uuid with
    | none => none
    | some frames =>
        some (true,
          { s with response :=
              fun u => if u = uuid then some (frames ++ [frameIn]) else s.response u })

/-- `Rpc.remove_request`: delete every name owned by this uuid. -/
def remove_request (s : Rpc) (uuid : Nat) : Rpc :=
  { s with request := fun n => if s.request n = some uuid then none else s.request n }

/-- `Rpc.remove_response`: delete this uuid's response list. -/
def remove_response (s : Rpc) (uuid : Nat) : Rpc :=
  { s with response := fun u => if u = uuid then none else s.response u }

/-- `Rpc.remove`. -/
def rpc_remove (s : Rpc) (uuid : Nat) : Rpc :=
  remove_response (remove_request s uuid) uuid

/-- How `Rpc.get_request` begins: with an unknown uuid it returns `None`
immediately (`if uuid not in self._response: return`); with a known uuid it
proceeds into `_wait_for_request`, which blocks the calling thread polling
for a response and is beyond this pure model. -/
inductive GetRequestOutcome where
  | immediateNone : GetRequestOutcome
  | waitsForResponse : GetRequestOutcome
  deriving DecidableEq, Repr

/-- `Rpc.get_request` up to its first (and only non-blocking) exit. -/
def get_request (s : Rpc) (uuid : Nat) : GetRequestOutcome × Rpc :=
  if s.response uuid = none then (.immediateNone, s) else (.waitsForResponse, s)

/-- Fold `on_frame` over an inbound frame sequence; `none` if any step would
have raised. -/
def process_frames (s : Rpc) : List InFrame → Option Rpc
  | [] => some s
  | f :: rest =>
    match on_frame s f with
    | none => none
    | some (_, s') => process_frames s' rest

/-- The response list accumulated for a uuid (empty when absent). -/
def responses (s : Rpc) (uuid : Nat) : List InFrame := (s.response uuid).getD []

/-- Correlator invariant: every owned name belongs to `u1` (satisfying `P1`)
or `u2` (satisfying `P2`), every owner has a response list, and the frames
accumulated for `u1` and `u2` satisfy `P1` resp. `P2`. -/
def RpcInv (P1 P2 : String → Prop) (u1 u2 : Nat) (s : Rpc) : Prop :=
  (∀ n u, s.request n = some u → (u = u1 ∧ P1 n) ∨ (u = u2 ∧ P2 n)) ∧
  (∀ n u, s.request n = some u → s.response u ≠ none) ∧
  (∀ f ∈ responses s u1, P1 f.name) ∧
  (∀ f ∈ responses s u2, P2 f.name)

theorem on_frame_inv (P1 P2 : String → Prop) (u1 u2 : Nat) (hne : u1 ≠ u2)
    (s : Rpc) (hinv : RpcInv P1 P2 u1 u2 s) (f : InFrame) :
    ∃ b s', on_frame s f = some (b, s') ∧ RpcInv P1 P2 u1 u2 s' ∧
      s'.request = s.request := by
  obtain ⟨h1, h2, h3, h4⟩ := hinv
  cases hreq : s.request f.name with
  | none => exact ⟨false, s, by simp [on_frame, hreq], ⟨h1, h2, h3, h4⟩, rfl⟩
  | some u =>
    cases hresp : s.response u with
    | none => exact absurd hresp (h2 _ _ hreq)
    | some frames =>
      refine ⟨true,
        { s with response := fun v => if v = u then some (frames ++ [f]) else s.response v },
        by simp [on_frame, hreq, hresp], ⟨h1, ?_, ?_, ?_⟩, rfl⟩
      · intro n v hv
        show ¬(if v = u then some (frames ++ [f]) else s.response v) = none
        by_cases hvu : v = u
        · rw [if_pos hvu]
          simp
        · rw [if_neg hvu]
          exact h2 n v hv
      · intro g hg
        have hg' : g ∈ (if u1 = u then some (frames ++ [f]) else s.response u1).getD [] := hg
        by_cases hu : u1 = u
        · rw [if_pos hu, Option.getD_some] at hg'
          rcases List.mem_append.mp hg' with hgf | hgf
          · apply h3 g
            show g ∈ (s.response u1).getD []
            rw [hu, hresp]
            exact hgf
          · rcases h1 _ _ hreq with ⟨-, hp⟩ | ⟨hu2, -⟩
            · rw [List.mem_singleton.mp hgf]
              exact hp
            · exact absurd (hu.trans hu2) hne
        · rw [if_neg hu] at hg'
          exact h3 g hg'
      · intro g hg
        have hg' : g ∈ (if u2 = u then some (frames ++ [f]) else s.response u2).getD [] := hg
        by_cases hu : u2 = u
        · rw [if_pos hu, Option.getD_some] at hg'
          rcases List.mem_append.mp hg' with hgf | hgf
          · apply h4 g
            show g ∈ (s.response u2).getD []
            rw [hu, hresp]
            exact hgf
          · rcases h1 _ _ hreq with ⟨hu1, -⟩ | ⟨-, hp⟩
            · exact absurd (hu.trans hu1).symm hne
            · rw [List.mem_singleton.mp hgf]
              exact hp
        · rw [if_neg hu] at hg'
          exact h4 g hg'

theorem process_frames_inv (P1 P2 : String → Prop) (u1 u2 : Nat) (hne : u1 ≠ u2)
    (fs : List InFrame) :
    ∀ s : Rpc, RpcInv P1 P2 u1 u2 s →
      ∃ s', process_frames s fs = some s' ∧ RpcInv P1 P2 u1 u2 s' ∧
        s'.request = s.request := by
  induction fs with
  | nil => intro s h; exact ⟨s, rfl, h, rfl⟩
  | cons f rest ih =>
    intro s h
    obtain ⟨b, s1, hof, hinv1, hreq1⟩ := on_frame_inv P1 P2 u1 u2 hne s h f
    obtain ⟨s2, hpf, hinv2, hreq2⟩ := ih s1 hinv1
    refine ⟨s2, ?_, hinv2, hreq2.trans hreq1⟩
    simp [process_frames, hof, hpf]

theorem inv_after_registers (S1 S2 : List String) :
    RpcInv (fun m => m ∈ S1 ∧ m ∉ S2) (fun m => m ∈ S2) 0 1
      (register_request (register_request rpcInit S1).2 S2).2 := by
  refine ⟨?_, ?_, ?_, ?_⟩
  · intro n u h
    simp only [register_request, rpcInit] at h
    by_cases h2 : n ∈ S2
    · rw [if_pos h2] at h
      exact Or.inr ⟨(Option.some.inj h).symm, h2⟩
    · rw [if_neg h2] at h
      by_cases h1 : n ∈ S1
      · rw [if_pos h1] at h
        exact Or.inl ⟨(Option.some.inj h).symm, h1, h2⟩
      · rw [if_neg h1] at h
        exact absurd h (by simp)
  · intro n u h
    simp only [register_request, rpcInit] at h ⊢
    by_cases h2 : n ∈ S2
    · rw [if_pos h2] at h
      rw [← Option.some.inj h]
      simp
    · rw [if_neg h2] at h
      by_cases h1 : n ∈ S1
      · rw [if_pos h1] at h
        rw [← Option.some.inj h]
        simp
      · rw [if_neg h1] at h
        exact absurd h (by simp)
  · intro f hf
    simp [responses, register_request, rpcInit] at hf
  · intro f hf
    simp [responses, register_request, rpcInit] at hf

/-- C4: starting from a fresh correlator, register a request for the names
`S1` and then another for the names `S2`, disjoint from `S1`.  After any
sequence of inbound frames, every frame accumulated for the first request is
named in `S1` and every frame accumulated for the second is named in `S2`
(no cross-delivery); no step raises; and a frame whose name is owned by no
pending request is rejected with `false` and changes nothing. -/
theorem rpc_no_cross_delivery (S1 S2 : List String) (fs : List InFrame)
    (hdisj : ∀ n, n ∈ S1 → n ∉ S2) :
    ∃ sF, process_frames (register_request (register_request rpcInit S1).2 S2).2 fs =
        some sF ∧
      (∀ f ∈ responses sF (register_request rpcInit S1).1, f.name ∈ S1) ∧
      (∀ f ∈ responses sF ((register_request (register_request rpcInit S1).2 S2).1),
        f.name ∈ S2) ∧
      (∀ g : InFrame, sF.request g.name = none → on_frame sF g = some (false, sF)) := by
  obtain ⟨sF, hpf, hinv, hreq⟩ :=
    process_frames_inv (fun m => m ∈ S1 ∧ m ∉ S2) (fun m => m ∈ S2) 0 1
      (by decide) fs _ (inv_after_registers S1 S2)
  refine ⟨sF, hpf, ?_, ?_, ?_⟩
  · intro f hf
    exact (hinv.2.2.1 f hf).1
  · intro f hf
    exact hinv.2.2.2 f hf
  · intro g hg
    rw [on_frame, hg]

/-- C4 witness: requests for Channel.OpenOk and Basic.ConsumeOk with an
unrelated Basic.Deliver frame interleaved. -/
theorem rpc_no_cross_delivery_witness :
    ∃ sF, process_frames
        (register_request (register_request rpcInit ["Channel.OpenOk"]).2
          ["Basic.ConsumeOk"]).2
        [⟨"Basic.Deliver", 2⟩, ⟨"Channel.OpenOk", 1⟩] = some sF ∧
      (∀ f ∈ responses sF (register_request rpcInit ["Channel.OpenOk"]).1,
        f.name ∈ ["Channel.OpenOk"]) ∧
      (∀ f ∈ responses sF ((register_request (register_request rpcInit
          ["Channel.OpenOk"]).2 ["Basic.ConsumeOk"]).1),
        f.name ∈ ["Basic.ConsumeOk"]) ∧
      (∀ g : InFrame, sF.request g.name = none → on_frame sF g = some (false, sF)) :=
  rpc_no_cross_delivery ["Channel.OpenOk"] ["Basic.ConsumeOk"]
    [⟨"Basic.Deliver", 2⟩, ⟨"Channel.OpenOk", 1⟩]
    (by intro n hn; simp at hn; subst hn; decide)

/-- C9: when a later registration `S2` shares the name `n` with an earlier
registration `S1`, the later request owns `n` after any frame sequence: a
frame named `n` is always consumed into the later request's response list and
never appears in the earlier request's list. -/
theorem rpc_latest_registration_owns_name (S1 S2 : List String) (n : String)
    (hn1 : n ∈ S1) (hn2 : n ∈ S2) (fs : List InFrame) :
    ∃ sF, process_frames (register_request (register_request rpcInit S1).2 S2).2 fs =
        some sF ∧
      sF.request n = some ((register_request (register_request rpcInit S1).2 S2).1) ∧
      (∀ f ∈ responses sF (register_request rpcInit S1).1, f.name ≠ n) ∧
      (∀ f : InFrame, f.name = n →
        ∃ sG, on_frame sF f = some (true, sG) ∧
          responses sG ((register_request (register_request rpcInit S1).2 S2).1) =
            responses sF ((register_request (register_request rpcInit S1).2 S2).1)
              ++ [f] ∧
          responses sG ((register_request rpcInit S1).1) =
            responses sF ((register_request rpcInit S1).1)) := by
  obtain ⟨sF, hpf, hinv, hreq⟩ :=
    process_frames_inv (fun m => m ∈ S1 ∧ m ∉ S2) (fun m => m ∈ S2) 0 1
      (by decide) fs _ (inv_after_registers S1 S2)
  have hu2 : ((register_request (register_request rpcInit S1).2 S2).1) = 1 := rfl
  have hu1 : (register_request rpcInit S1).1 = 0 := rfl
  have hown : sF.request n = some 1 := by
    rw [hreq]
    simp [register_request, rpcInit, hn2]
  refine ⟨sF, hpf, by rw [hu2]; exact hown, ?_, ?_⟩
  · intro f hf heq
    exact (hinv.2.2.1 f (by rw [hu1] at hf; exact hf)).2 (heq ▸ hn2)
  · intro f hf
    cases hresp : sF.response 1 with
    | none => exact absurd hresp (hinv.2.1 _ _ hown)
    | some frames =>
      refine ⟨{ sF with response :=
          fun v => if v = 1 then some (frames ++ [f]) else sF.response v }, ?_, ?_, ?_⟩
      · simp [on_frame, hf, hown, hresp]
      · rw [hu2]
        simp [responses, hresp]
      · rw [hu1]
        simp [responses]

/-- C9 witness: Basic.GetOk registered twice; the frame goes to the second
registration. -/
theorem rpc_latest_registration_owns_name_witness :
    ∃ sF, process_frames (register_request (register_request rpcInit
        ["Basic.GetOk", "Basic.GetEmpty"]).2 ["Basic.GetOk"]).2 [] = some sF ∧
      sF.request "Basic.GetOk" = some ((register_request (register_request rpcInit
        ["Basic.GetOk", "Basic.GetEmpty"]).2 ["Basic.GetOk"]).1) ∧
      (∀ f ∈ responses sF (register_request rpcInit
        ["Basic.GetOk", "Basic.GetEmpty"]).1, f.name ≠ "Basic.GetOk") ∧
      (∀ f : InFrame, f.name = "Basic.GetOk" →
        ∃ sG, on_frame sF f = some (true, sG) ∧
          responses sG ((register_request (register_request rpcInit
              ["Basic.GetOk", "Basic.GetEmpty"]).2 ["Basic.GetOk"]).1) =
            responses sF ((register_request (register_request rpcInit
              ["Basic.GetOk", "Basic.GetEmpty"]).2 ["Basic.GetOk"]).1) ++ [f] ∧
          responses sG ((register_request rpcInit
              ["Basic.GetOk", "Basic.GetEmpty"]).1) =
            responses sF ((register_request rpcInit
              ["Basic.GetOk", "Basic.GetEmpty"]).1)) :=
  rpc_latest_registration_owns_name ["Basic.GetOk", "Basic.GetEmpty"] ["Basic.GetOk"]
    "Basic.GetOk" (by decide) (by decide) []

/-- C10: `get_request` with a uuid that has no response entry (never
registered, or already removed by `Rpc.remove`) returns `None` immediately
without entering the blocking wait, raising, or changing any state. -/
theorem get_request_unknown_uuid :
    (∀ (s : Rpc) (uuid : Nat), s.response uuid = none →
      get_request s uuid = (.immediateNone, s)) ∧
    (∀ (s : Rpc) (uuid : Nat),
      get_request (rpc_remove s uuid) uuid = (.immediateNone, rpc_remove s uuid)) := by
  constructor
  · intro s uuid h
    rw [get_request, if_pos h]
  · intro s uuid
    have h : (rpc_remove s uuid).response uuid = none := by
      simp [rpc_remove, remove_response]
    rw [get_request, if_pos h]

/-- C10 witness: a fresh correlator queried for uuid 5. -/
theorem get_request_unknown_uuid_witness :
    get_request rpcInit 5 = (GetRequestOutcome.immediateNone, rpcInit) :=
  get_request_unknown_uuid.1 rpcInit 5 rfl

/-! ### Channel id allocation (amqpstorm.connection.Connection) -/

/-- Modelled from the spec: the `amqpstorm.base.Stateful` states
(CLOSED, OPENING, OPEN, CLOSING); base.py is not in the snapshot. -/
inductive ChannelState where
  | closed : ChannelState
  | opening : ChannelState
  | opened : ChannelState
  | closing : ChannelState
  deriving DecidableEq, Repr

/-- The connection fields involved in channel-id allocation: the
`_channels` dict (id to that channel's current state), `_last_channel_id`
and `max_allowed_channels`. -/
structure ConnectionChannels where
  channels : Nat → Option ChannelState
  lastChannelId : Option Nat
  maxAllowedChannels : Nat

/-- Python truthiness of `self._last_channel_id or 1`: `None` and `0` both
fall back to 1. -/
def last_or_one : Option Nat → Nat
  | none => 1
  | some 0 => 1
  | some (k + 1) => k + 1

/-- The `for channel_id in RANGE(start, max + 1)` loop body of
`_get_next_available_channel_id`: return the first id at or after `i` (with
`fuel` ids left in the range) that is absent from `_channels` or whose
channel is CLOSED; non-CLOSED entries are skipped with `continue`. -/
def find_available_channel_id (channels : Nat → Option ChannelState) :
    Nat → Nat → Option Nat
  | _, 0 => none
  | i, fuel + 1 =>
    match channels i with
    | none => some i
    | some st =>
        if st = .closed then some i
        else find_available_channel_id channels (i + 1) fuel

/-- `Connection._get_next_available_channel_id`: scan from
`_last_channel_id or 1` up to `max_allowed_channels`; on success delete a
reused CLOSED channel from the dict, record the id as `_last_channel_id` and
return it.  If the scan fails and `_last_channel_id` was truthy, reset it and
rescan once from 1; otherwise raise the capacity `AMQPConnectionError`. -/
def get_next_available_channel_id (s : ConnectionChannels) :
    Except AMQPError (Nat × ConnectionChannels) :=
  match find_available_channel_id s.channels (last_or_one s.lastChannelId)
      (s.maxAllowedChannels + 1 - last_or_one s.lastChannelId) with
  | some i =>
      .ok (i, { s with channels := fun j => if j = i then none else s.channels j
                       lastChannelId := some i })
  | none =>
    match s.lastChannelId with
    | some (_ + 1) =>
      match find_available_channel_id s.channels 1 s.maxAllowedChannels with
      | some i =>
          .ok (i, { s with channels := fun j => if j = i then none else s.channels j
                           lastChannelId := some i })
      | none =>
          .error (.connectionError
            ("reached the maximum number of channels " ++ toString s.maxAllowedChannels))
    | _ =>
        .error (.connectionError
          ("reached the maximum number of channels " ++ toString s.maxAllowedChannels))

/-- The channel id `Connection.channel()` would assign in a given state
(`none` when allocation raises the capacity error). -/
def allocated_channel_id (s : ConnectionChannels) : Option Nat :=
  match get_next_available_channel_id s with
  | .ok (i, _) => some i
  | .error _ => none

theorem last_or_one_pos (o : Option Nat) : 1 ≤ last_or_one o := by
  match o with
  | none => exact le_refl 1
  | some 0 => exact le_refl 1
  | some (k + 1) => exact Nat.succ_le_succ (Nat.zero_le k)

theorem find_available_spec (channels : Nat → Option ChannelState) :
    ∀ (fuel i j : Nat), find_available_channel_id channels i fuel = some j →
      i ≤ j ∧ j < i + fuel ∧ (channels j = none ∨ channels j = some .closed) := by
  intro fuel
  induction fuel with
  | zero =>
    intro i j h
    exact absurd h (by rw [find_available_channel_id]; simp)
  | succ fuel ih =>
    intro i j h
    rw [find_available_channel_id] at h
    cases hc : channels i with
    | none =>
      simp only [hc] at h
      obtain rfl := Option.some.inj h
      exact ⟨le_refl i, by omega, Or.inl hc⟩
    | some st =>
      simp only [hc] at h
      by_cases hst : st = .closed
      · rw [if_pos hst] at h
        obtain rfl := Option.some.inj h
        exact ⟨le_refl i, by omega, Or.inr (by rw [hc, hst])⟩
      · rw [if_neg hst] at h
        obtain ⟨h1, h2, h3⟩ := ih (i + 1) j h
        exact ⟨by omega, by omega, h3⟩

theorem find_available_none (channels : Nat → Option ChannelState) :
    ∀ (fuel i : Nat),
      (∀ j, i ≤ j → j < i + fuel → ∃ st, channels j = some st ∧ st ≠ .closed) →
      find_available_channel_id channels i fuel = none := by
  intro fuel
  induction fuel with
  | zero =>
    intro i h
    rw [find_available_channel_id]
  | succ fuel ih =>
    intro i h
    obtain ⟨st, hst, hstc⟩ := h i (le_refl i) (by omega)
    rw [find_available_channel_id]
    simp only [hst]
    rw [if_neg hstc]
    exact ih (i + 1) (fun j hj1 hj2 => h j (by omega) (by omega))

/-- The scan returns the FIRST acceptable id: every id it skipped holds a
non-CLOSED channel. -/
theorem find_available_first (channels : Nat → Option ChannelState) :
    ∀ (fuel i j : Nat), find_available_channel_id channels i fuel = some j →
      ∀ k, i ≤ k → k < j → ∃ st, channels k = some st ∧ st ≠ .closed := by
  intro fuel
  induction fuel with
  | zero =>
    intro i j h
    exact absurd h (by rw [find_available_channel_id]; simp)
  | succ fuel ih =>
    intro i j h k hk1 hk2
    rw [find_available_channel_id] at h
    cases hc : channels i with
    | none =>
      simp only [hc] at h
      obtain rfl := Option.some.inj h
      exact absurd hk2 (by omega)
    | some st =>
      simp only [hc] at h
      by_cases hst : st = .closed
      · rw [if_pos hst] at h
        obtain rfl := Option.some.inj h
        exact absurd hk2 (by omega)
      · rw [if_neg hst] at h
        by_cases hki : k = i
        · exact ⟨st, hki ▸ hc, hst⟩
        · exact ih (i + 1) j h k (by omega) hk2

/-- A failed scan means every id in its range holds a non-CLOSED channel. -/
theorem find_available_none_busy (channels : Nat → Option ChannelState) :
    ∀ (fuel i : Nat), find_available_channel_id channels i fuel = none →
      ∀ k, i ≤ k → k < i + fuel → ∃ st, channels k = some st ∧ st ≠ .closed := by
  intro fuel
  induction fuel with
  | zero =>
    intro i h k hk1 hk2
    exact absurd hk2 (by omega)
  | succ fuel ih =>
    intro i h k hk1 hk2
    rw [find_available_channel_id] at h
    cases hc : channels i with
    | none =>
      simp only [hc] at h
      exact absurd h (by simp)
    | some st =>
      simp only [hc] at h
      by_cases hst : st = .closed
      · rw [if_pos hst] at h
        exact absurd h (by simp)
      · rw [if_neg hst] at h
        by_cases hki : k = i
        · exact ⟨st, hki ▸ hc, hst⟩
        · exact ih (i + 1) h k (by omega) (by omega)

/-- C6 (amended): the allocator scans from `_last_channel_id or 1` (not from
1), wrapping around to 1 only when that scan fails, so the assigned id is the
FIRST available id (unused or CLOSED) at or after the resume point — every id
between the resume point and the assigned one holds a non-CLOSED channel —
or, when every id from the resume point up to the maximum is busy, the first
available id counting from 1.  An assigned id is always in
`[1, max_allowed_channels]` and reuses an existing entry only when that
channel is CLOSED (the entry is then dropped); when every id in
`[1, max_allowed_channels]` holds a non-CLOSED channel the call fails with
the capacity connection error; and the open-channel-1, close-it, open-again
scenario yields id 1 because the resume point is 1. -/
theorem channel_id_allocation :
    (∀ (s : ConnectionChannels) (i : Nat) (s' : ConnectionChannels),
      get_next_available_channel_id s = .ok (i, s') →
      (s.channels i = none ∨ s.channels i = some .closed) ∧
      1 ≤ i ∧ i ≤ s.maxAllowedChannels ∧
      s'.channels i = none ∧ s'.lastChannelId = some i ∧
      ((last_or_one s.lastChannelId ≤ i ∧
        (∀ k, last_or_one s.lastChannelId ≤ k → k < i →
          ∃ st, s.channels k = some st ∧ st ≠ .closed)) ∨
       ((∀ k, last_or_one s.lastChannelId ≤ k → k ≤ s.maxAllowedChannels →
          ∃ st, s.channels k = some st ∧ st ≠ .closed) ∧
        (∀ k, 1 ≤ k → k < i →
          ∃ st, s.channels k = some st ∧ st ≠ .closed)))) ∧
    (∀ s : ConnectionChannels,
      (∀ j, 1 ≤ j → j ≤ s.maxAllowedChannels →
        ∃ st, s.channels j = some st ∧ st ≠ .closed) →
      get_next_available_channel_id s = .error (.connectionError
        ("reached the maximum number of channels " ++ toString s.maxAllowedChannels))) ∧
    (∀ M : Nat, 1 ≤ M →
      allocated_channel_id
        ⟨fun j => if j = 1 then some .closed else none, some 1, M⟩ = some 1) := by
  refine ⟨?_, ?_, ?_⟩
  · intro s i s' h
    unfold get_next_available_channel_id at h
    cases h1 : find_available_channel_id s.channels (last_or_one s.lastChannelId)
        (s.maxAllowedChannels + 1 - last_or_one s.lastChannelId) with
    | some i0 =>
      rw [h1] at h
      obtain ⟨hi, hs⟩ := Prod.mk.injEq .. ▸ Except.ok.inj h
      subst hi
      obtain ⟨hlo, hhi, hfree⟩ := find_available_spec s.channels _ _ _ h1
      have hstart := last_or_one_pos s.lastChannelId
      refine ⟨hfree, by omega, by omega, ?_, ?_, ?_⟩
      · rw [← hs]
        simp
      · rw [← hs]
      · exact Or.inl ⟨hlo, fun k hk1 hk2 =>
          find_available_first s.channels _ _ _ h1 k hk1 hk2⟩
    | none =>
      rw [h1] at h
      cases hlast : s.lastChannelId with
      | none =>
        rw [hlast] at h
        exact absurd h (by simp)
      | some k =>
        cases k with
        | zero =>
          rw [hlast] at h
          exact absurd h (by simp)
        | succ k =>
          rw [hlast] at h
          cases h2 : find_available_channel_id s.channels 1 s.maxAllowedChannels with
          | some i0 =>
            rw [h2] at h
            obtain ⟨hi, hs⟩ := Prod.mk.injEq .. ▸ Except.ok.inj h
            subst hi
            obtain ⟨hlo, hhi, hfree⟩ := find_available_spec s.channels _ _ _ h2
            refine ⟨hfree, by omega, by omega, ?_, ?_, ?_⟩
            · rw [← hs]
              simp
            · rw [← hs]
            · refine Or.inr ⟨fun k hk1 hk2 => ?_, fun k hk1 hk2 =>
                find_available_first s.channels _ _ _ h2 k hk1 hk2⟩
              refine find_available_none_busy s.channels _ _ h1 k ?_ ?_
              · rw [hlast]
                exact hk1
              · rw [hlast]
                omega
          | none =>
            rw [h2] at h
            exact absurd h (by simp)
  · intro s hfull
    have hstart := last_or_one_pos s.lastChannelId
    have h1 : find_available_channel_id s.channels (last_or_one s.lastChannelId)
        (s.maxAllowedChannels + 1 - last_or_one s.lastChannelId) = none := by
      apply find_available_none
      intro j hj1 hj2
      exact hfull j (by omega) (by omega)
    have h2 : find_available_channel_id s.channels 1 s.maxAllowedChannels = none := by
      apply find_available_none
      intro j hj1 hj2
      exact hfull j hj1 (by omega)
    unfold get_next_available_channel_id
    rw [h1]
    cases hlast : s.lastChannelId with
    | none => rfl
    | some k =>
      cases k with
      | zero => rfl
      | succ k =>
        rw [h2]
  · intro M hM
    obtain ⟨m, rfl⟩ : ∃ m, M = m + 1 := ⟨M - 1, by omega⟩
    unfold allocated_channel_id get_next_available_channel_id
    have hstart : last_or_one (some 1) = 1 := rfl
    have hfuel : m + 1 + 1 - last_or_one (some 1) = m + 1 := by
      rw [hstart]
      omega
    rw [hfuel]
    have hfind : find_available_channel_id
        (fun j => if j = 1 then some ChannelState.closed else none)
        (last_or_one (some 1)) (m + 1) = some 1 := by
      rw [hstart, find_available_channel_id]
      simp
    rw [hfind]

/-- C6 counterexample: with channels {1: CLOSED, 2: OPEN}, `_last_channel_id
= 2` and `max_allowed_channels = 3`, a new channel gets id 3 even though id 1
is unused (its channel is CLOSED and reusable): the allocator does not assign
the lowest unused id. -/
theorem allocation_not_lowest_unused :
    allocated_channel_id
      ⟨fun j => if j = 1 then some .closed else if j = 2 then some .opened else none,
        some 2, 3⟩ = some 3 ∧
    (fun j => if j = 1 then some ChannelState.closed
      else if j = 2 then some ChannelState.opened else none) 1 =
      some ChannelState.closed ∧
    (3 : Nat) ≠ 1 := by
  refine ⟨?_, by decide, by decide⟩
  rfl

/-- C6 witness: the close-then-reopen scenario at capacity 3 hands out id 1
again. -/
theorem channel_id_allocation_witness :
    (1 : Nat) ≤ 3 ∧
    allocated_channel_id
      ⟨fun j => if j = 1 then some .closed else none, some 1, 3⟩ = some 1 :=
  ⟨by decide, channel_id_allocation.2.2 3 (by decide)⟩

/-! ### Fail-fast on CLOSED (Connection.channel, Channel.write_frame) -/

end AmqpStorm
